import Mathlib

/-!
# The number-guessing game (`guessing_game_app.cpp`)

A shallow embedding of `main` of
`src/app/part0/ch05.programming_a_guessing_game/guessing_game_app.cpp`
and the properties of its read / parse / classify loop.

* Standard input is a finite list of lines; `std::getline` pops the head and
  fails on the empty list (end of input).
* Standard output and standard error are lists of the chunks written, in order.
* `int32_t` values are mathematical integers; the only place where the width
  matters is the representability test of `std::from_chars`.
* A line is a string of characters; `from_chars` only tells decimal digits and the minus
  sign from everything else, so bytes outside ASCII behave like any other non-digit.
* The random source is a parameter of `main`: the sequence of values its successive draws
  return. `main` draws once, before the loop; the loop never touches the generator.
-/

namespace GuessingGame

/-! ## Library functions used by `main` -/

/-- Values of `std::errc` that `std::from_chars` reports; `ok` is `std::errc()`. -/
inductive errc where
  | ok
  | invalid_argument
  | result_out_of_range
  deriving DecidableEq, Repr

/-- Result record `std::from_chars_result`; `ptr` is an offset from `first`. -/
structure from_chars_result where
  ptr : Nat
  ec : errc
  deriving DecidableEq, Repr

/-- Smallest value of `int32_t`. -/
def INT32_MIN : Int := -2147483648

/-- Largest value of `int32_t`. -/
def INT32_MAX : Int := 2147483647

/-- Numeric value of a decimal digit character. -/
def digitValue (c : Char) : Nat := c.toNat - '0'.toNat

/-- Value of a run of decimal digits, most significant first. -/
def accumulate (ds : List Char) : Nat :=
  ds.foldl (fun acc c => acc * 10 + digitValue c) 0

/-- The call `std::from_chars(first, last, value)` for `int32_t` in base 10, after the C++
standard (charconv.from.chars): no whitespace is skipped, a minus sign is the only sign
recognised, the longest run of digits after it is consumed; with no digit the error is
`invalid_argument` and `ptr = first`; when the number is not representable in `int32_t` the
error is `result_out_of_range`; on error `value` is left unmodified. Returns the result
record and the new content of `value`. -/
def from_chars (s : List Char) (value : Int) : from_chars_result × Int :=
  let negative : Bool := s.head? == some '-'
  let body := if negative then s.tail else s
  let ds := body.takeWhile Char.isDigit
  if ds.isEmpty then
    (⟨0, errc.invalid_argument⟩, value)
  else
    let ptr := (if negative then 1 else 0) + ds.length
    let parsed : Int := if negative then -(accumulate ds : Int) else (accumulate ds : Int)
    if INT32_MIN ≤ parsed ∧ parsed ≤ INT32_MAX then
      (⟨ptr, errc.ok⟩, parsed)
    else
      (⟨ptr, errc.result_out_of_range⟩, value)

/-- Text produced by `std::format` for the replacement field of an `int32_t`: the decimal
digits, preceded by a minus sign for a negative value. -/
def formatInt (n : Int) : String := toString n

/-! ## Texts written by `main` -/

def secretText (secret_number : Int) : String :=
  "The secret number is: " ++ formatInt secret_number ++ "\n"

def guessTheNumberText : String := "Guess the number!\n"

def promptText : String := "Please input your guess.\n"

def failedReadText : String := "Failed to read line\n"

def guessedText (guess : Int) : String :=
  "You guessed: " ++ formatInt guess ++ "\n"

def invalidInputText : String := "Error. Invalid input. Please enter a valid number.\n"

def outOfRangeText : String := "Error: Please enter a number between 1 and 100.\n"

def tooSmallText : String := "Too small!\n"

def tooBigText : String := "Too big!\n"

def youWinText : String := "You win!!\n"

/-! ## The loop body -/

/-- The five ways one pass through the body of the `while` loop can end once a line was read:
the branch taken in lines 36-59 of the source. -/
inductive RoundOutcome where
  | ParseError
  | RangeError
  | TooLow
  | TooHigh
  | Win
  deriving DecidableEq, Repr

/-- What one pass through the loop body does after a successful `getline`. -/
structure Round where
  /-- Branch taken. -/
  outcome : RoundOutcome
  /-- Chunks written to `std::cout` by this pass, in order. -/
  cout : List String
  /-- Whether `break` was executed (otherwise the loop goes to the next read). -/
  broke : Bool
  deriving DecidableEq, Repr

/-- Lines 31-59 of the source: the loop body from the declaration of `guess` on, for the line
`guess_str` just read. -/
def processLine (secret_number : Int) (guess_str : String) : Round :=
  let guess : Int := 0
  let (res, guess) := from_chars guess_str.toList guess
  let err_code := res.ec
  if err_code = errc.ok then
    let out := [guessedText guess]
    if guess < 1 ∨ guess > 100 then
      ⟨RoundOutcome.RangeError, out ++ [outOfRangeText], false⟩
    else if guess < secret_number then
      ⟨RoundOutcome.TooLow, out ++ [tooSmallText], false⟩
    else if guess > secret_number then
      ⟨RoundOutcome.TooHigh, out ++ [tooBigText], false⟩
    else
      ⟨RoundOutcome.Win, out ++ [youWinText], true⟩
  else
    ⟨RoundOutcome.ParseError, [invalidInputText], false⟩

/-! ## The loop and `main` -/

/-- Observable result of a run. -/
structure Run where
  /-- Chunks written to `std::cout`, in order. -/
  cout : List String
  /-- Chunks written to `std::cerr`, in order. -/
  cerr : List String
  /-- Value returned by `main`. -/
  status : Int
  /-- Branch taken by each pass that read a line, in order. -/
  outcomes : List RoundOutcome
  /-- Lines of standard input that were never read. -/
  unread : List String
  deriving DecidableEq, Repr

/-- A pass that wrote the prompt, read a line, did `r` without leaving the loop, and was
followed by the passes of `k`. -/
def continueWith (r : Round) (k : Run) : Run :=
  ⟨promptText :: (r.cout ++ k.cout), k.cerr, k.status, r.outcome :: k.outcomes, k.unread⟩

/-- The `while (true)` loop of lines 19-60 followed by `return 0`, run on the remaining lines
of standard input. Each pass writes the prompt and calls `getline`; a failed read writes to
`std::cerr` and returns 1; `break` leaves the loop and returns 0. -/
def gameLoop (secret_number : Int) : List String → Run
  | [] => ⟨[promptText], [failedReadText], 1, [], []⟩
  | guess_str :: rest =>
    let r := processLine secret_number guess_str
    if r.broke then
      ⟨promptText :: r.cout, [], 0, [r.outcome], rest⟩
    else
      continueWith r (gameLoop secret_number rest)

/-- The random source of lines 10-12: the seeded generator `gen` together with the
distribution. `draw a b i` is the value that `std::uniform_int_distribution<int32_t>(a, b)`
returns when it is called on the generator that has already served `i` draws; every call
advances the generator, so two calls need not return the same value. -/
structure RandomSource where
  draw : Int → Int → Nat → Int

/-- A random source honours its bounds when every draw lies in the closed interval asked for. -/
def RandomSource.honoursBounds (src : RandomSource) : Prop :=
  ∀ (a b : Int) (i : Nat), a ≤ b → a ≤ src.draw a b i ∧ src.draw a b i ≤ b

/-- The secret number of line 13: the one call `distribution(gen)` of the program, made on
the freshly seeded generator with the bounds 1 and 100 of line 12. -/
def drawSecret (src : RandomSource) : Int := src.draw 1 100 0

/-- The program: draw the secret, print it, print the banner, run the loop. -/
def main (src : RandomSource) (stdin : List String) : Run :=
  let secret_number := drawSecret src
  let k := gameLoop secret_number stdin
  { k with cout := secretText secret_number :: guessTheNumberText :: k.cout }

/-! ## Notions used to state the properties -/

/-- The guess held by `guess` after `from_chars` when it reported no error. -/
def parsedGuess (guess_str : String) : Option Int :=
  match from_chars guess_str.toList 0 with
  | (res, guess) => if res.ec = errc.ok then some guess else none

/-- A whole string that is a base-10 integer: an optional sign followed by one or more decimal
digits and nothing else. -/
def isDecimalInteger (line : String) : Bool :=
  match line.toList with
  | '-' :: ds => !ds.isEmpty && ds.all Char.isDigit
  | '+' :: ds => !ds.isEmpty && ds.all Char.isDigit
  | ds => !ds.isEmpty && ds.all Char.isDigit

/-- A line that begins with a base-10 integer in the syntax of `from_chars`: a decimal digit,
or a minus sign directly followed by a decimal digit. -/
def beginsWithInteger (line : String) : Bool :=
  match line.toList with
  | '-' :: c :: _ => c.isDigit
  | c :: _ => c.isDigit
  | [] => false

/-- A value of `int32_t`. -/
def fitsInt32 (g : Int) : Prop := INT32_MIN ≤ g ∧ g ≤ INT32_MAX

instance (g : Int) : Decidable (fitsInt32 g) := by
  unfold fitsInt32
  infer_instance

/-- A pass that ended in one of the two retried errors. -/
def isRejected (o : RoundOutcome) : Bool :=
  o = RoundOutcome.ParseError ∨ o = RoundOutcome.RangeError

/-! ## Decimal text and `from_chars` -/

theorem isDigit_digitChar (d : Nat) (h : d < 10) : (Nat.digitChar d).isDigit = true := by
  interval_cases d <;> decide

theorem digitValue_digitChar (d : Nat) (h : d < 10) : digitValue (Nat.digitChar d) = d := by
  interval_cases d <;> decide

theorem toDigitsCore_ne_nil (fuel n : Nat) (acc : List Char) (h : acc ≠ []) :
    Nat.toDigitsCore 10 fuel n acc ≠ [] := by
  induction fuel generalizing n acc with
  | zero => simpa [Nat.toDigitsCore] using h
  | succ fuel ih =>
    simp only [Nat.toDigitsCore]
    split
    · simp
    · exact ih _ _ (by simp)

theorem toDigits_ne_nil (n : Nat) : Nat.toDigits 10 n ≠ [] := by
  simp only [Nat.toDigits, Nat.toDigitsCore]
  split
  · simp
  · exact toDigitsCore_ne_nil _ _ _ (by simp)

theorem toDigitsCore_isDigit (fuel n : Nat) (acc : List Char)
    (h : ∀ c ∈ acc, c.isDigit = true) :
    ∀ c ∈ Nat.toDigitsCore 10 fuel n acc, c.isDigit = true := by
  induction fuel generalizing n acc with
  | zero => simpa [Nat.toDigitsCore] using h
  | succ fuel ih =>
    have hd : (Nat.digitChar (n % 10)).isDigit = true :=
      isDigit_digitChar _ (Nat.mod_lt _ (by decide))
    have hacc : ∀ c ∈ Nat.digitChar (n % 10) :: acc, c.isDigit = true := by
      intro c hc
      rcases List.mem_cons.mp hc with rfl | hc
      · exact hd
      · exact h c hc
    simp only [Nat.toDigitsCore]
    split
    · exact hacc
    · exact ih _ _ hacc

theorem toDigits_isDigit (n : Nat) : ∀ c ∈ Nat.toDigits 10 n, c.isDigit = true :=
  toDigitsCore_isDigit _ _ _ (by simp)

theorem foldl_toDigitsCore (fuel n : Nat) (acc : List Char) (h : n < fuel) :
    (Nat.toDigitsCore 10 fuel n acc).foldl (fun a c => a * 10 + digitValue c) 0 =
      acc.foldl (fun a c => a * 10 + digitValue c) n := by
  induction fuel generalizing n acc with
  | zero => omega
  | succ fuel ih =>
    have hv : digitValue (Nat.digitChar (n % 10)) = n % 10 :=
      digitValue_digitChar _ (Nat.mod_lt _ (by decide))
    simp only [Nat.toDigitsCore]
    split
    · rename_i h0
      have : n % 10 = n := by omega
      simp only [List.foldl_cons, hv, Nat.zero_mul, Nat.zero_add]
      rw [this]
    · rename_i h0
      rw [ih (n / 10) _ (by omega)]
      simp only [List.foldl_cons, hv]
      congr 1
      omega

theorem accumulate_toDigits (n : Nat) : accumulate (Nat.toDigits 10 n) = n := by
  simp [accumulate, Nat.toDigits, foldl_toDigitsCore n.succ n [] (Nat.lt_succ_self n)]

theorem toList_formatInt_ofNat (n : Nat) :
    (formatInt (Int.ofNat n)).toList = Nat.toDigits 10 n := rfl

theorem toList_formatInt_negSucc (m : Nat) :
    (formatInt (Int.negSucc m)).toList = '-' :: Nat.toDigits 10 (m + 1) := rfl

theorem head_ne_minus (ds : List Char) (hd : ∀ c ∈ ds, c.isDigit = true) :
    (ds.head? == some '-') = false := by
  cases ds with
  | nil => rfl
  | cons c t =>
    have hc : c.isDigit = true := hd c (by simp)
    have : c ≠ '-' := by
      rintro rfl
      exact absurd hc (by decide)
    simpa using this

theorem from_chars_digits (ds : List Char) (hne : ds ≠ []) (hd : ∀ c ∈ ds, c.isDigit = true)
    (value : Int) :
    from_chars ds value =
      if INT32_MIN ≤ (accumulate ds : Int) ∧ (accumulate ds : Int) ≤ INT32_MAX then
        (⟨ds.length, errc.ok⟩, (accumulate ds : Int))
      else (⟨ds.length, errc.result_out_of_range⟩, value) := by
  have htw : ds.takeWhile Char.isDigit = ds := List.takeWhile_eq_self_iff.mpr hd
  simp [from_chars, head_ne_minus ds hd, htw, hne]

theorem from_chars_minus_digits (ds : List Char) (hne : ds ≠ [])
    (hd : ∀ c ∈ ds, c.isDigit = true) (value : Int) :
    from_chars ('-' :: ds) value =
      if INT32_MIN ≤ -(accumulate ds : Int) ∧ -(accumulate ds : Int) ≤ INT32_MAX then
        (⟨1 + ds.length, errc.ok⟩, -(accumulate ds : Int))
      else (⟨1 + ds.length, errc.result_out_of_range⟩, value) := by
  have htw : ds.takeWhile Char.isDigit = ds := List.takeWhile_eq_self_iff.mpr hd
  simp [from_chars, htw, hne]

/-- Parsing the decimal text of `g`: the value is recovered when it fits `int32_t`, and the
error is `result_out_of_range` otherwise. -/
theorem from_chars_formatInt (g value : Int) :
    from_chars (formatInt g).toList value =
      if INT32_MIN ≤ g ∧ g ≤ INT32_MAX then
        (⟨(formatInt g).toList.length, errc.ok⟩, g)
      else (⟨(formatInt g).toList.length, errc.result_out_of_range⟩, value) := by
  cases g with
  | ofNat n =>
    rw [toList_formatInt_ofNat, from_chars_digits _ (toDigits_ne_nil n) (toDigits_isDigit n),
      accumulate_toDigits]
    rfl
  | negSucc m =>
    rw [toList_formatInt_negSucc,
      from_chars_minus_digits _ (toDigits_ne_nil _) (toDigits_isDigit _), accumulate_toDigits]
    have e : -((m + 1 : Nat) : Int) = Int.negSucc m := rfl
    rw [e]
    simp [Nat.add_comm]

/-! ## The loop body, case by case -/

theorem processLine_of_error (secret_number : Int) (guess_str : String)
    (h : (from_chars guess_str.toList 0).1.ec ≠ errc.ok) :
    processLine secret_number guess_str =
      ⟨RoundOutcome.ParseError, [invalidInputText], false⟩ := by
  simp only [String.toList] at h
  simp [processLine, h]

theorem processLine_of_ok (secret_number : Int) (guess_str : String)
    (h : (from_chars guess_str.toList 0).1.ec = errc.ok) :
    processLine secret_number guess_str =
      if (from_chars guess_str.toList 0).2 < 1 ∨ (from_chars guess_str.toList 0).2 > 100 then
        ⟨RoundOutcome.RangeError,
          [guessedText (from_chars guess_str.toList 0).2, outOfRangeText], false⟩
      else if (from_chars guess_str.toList 0).2 < secret_number then
        ⟨RoundOutcome.TooLow,
          [guessedText (from_chars guess_str.toList 0).2, tooSmallText], false⟩
      else if (from_chars guess_str.toList 0).2 > secret_number then
        ⟨RoundOutcome.TooHigh,
          [guessedText (from_chars guess_str.toList 0).2, tooBigText], false⟩
      else
        ⟨RoundOutcome.Win,
          [guessedText (from_chars guess_str.toList 0).2, youWinText], true⟩ := by
  simp only [String.toList] at h
  simp [processLine, h]

theorem guessedText_take (n : Int) :
    (guessedText n).toList.take 5 = ['Y', 'o', 'u', ' ', 'g'] := rfl

theorem guessedText_ne (n : Int) (t : String)
    (h : t.toList.take 5 ≠ ['Y', 'o', 'u', ' ', 'g']) : guessedText n ≠ t := by
  intro e
  exact h (e ▸ guessedText_take n)

theorem secretText_ne_youWinText (n : Int) : secretText n ≠ youWinText := by
  intro e
  have h : (secretText n).toList.take 1 = ['T'] := rfl
  rw [e] at h
  exact absurd h (by decide)

theorem from_chars_no_leading_integer (guess_str : String) (value : Int)
    (h : beginsWithInteger guess_str = false) :
    from_chars guess_str.toList value = (⟨0, errc.invalid_argument⟩, value) := by
  unfold beginsWithInteger at h
  split at h
  · rename_i c t heq
    rw [heq]
    simp [from_chars, List.takeWhile, h]
  · rename_i c t hnot heq
    rw [heq]
    by_cases hc : c = '-'
    · subst hc
      cases t with
      | nil => simp [from_chars]
      | cons d t => exact (hnot d t rfl rfl).elim
    · simp [from_chars, List.takeWhile, h, hc]
  · rename_i heq
    rw [heq]
    simp [from_chars]

theorem gameLoop_cons_of_not_broke (secret_number : Int) (guess_str : String)
    (rest : List String) (h : (processLine secret_number guess_str).broke = false) :
    gameLoop secret_number (guess_str :: rest) =
      continueWith (processLine secret_number guess_str) (gameLoop secret_number rest) := by
  simp [gameLoop, h]

theorem gameLoop_cons_of_broke (secret_number : Int) (guess_str : String)
    (rest : List String) (h : (processLine secret_number guess_str).broke = true) :
    gameLoop secret_number (guess_str :: rest) =
      ⟨promptText :: (processLine secret_number guess_str).cout, [], 0,
        [(processLine secret_number guess_str).outcome], rest⟩ := by
  simp [gameLoop, h]

theorem processLine_formatInt_of_fits (secret_number g : Int) (h : fitsInt32 g) :
    processLine secret_number (formatInt g) =
      if g < 1 ∨ g > 100 then
        ⟨RoundOutcome.RangeError, [guessedText g, outOfRangeText], false⟩
      else if g < secret_number then
        ⟨RoundOutcome.TooLow, [guessedText g, tooSmallText], false⟩
      else if g > secret_number then
        ⟨RoundOutcome.TooHigh, [guessedText g, tooBigText], false⟩
      else
        ⟨RoundOutcome.Win, [guessedText g, youWinText], true⟩ := by
  have hf : from_chars (formatInt g).toList 0 =
      (⟨(formatInt g).toList.length, errc.ok⟩, g) := by
    rw [from_chars_formatInt, if_pos (show INT32_MIN ≤ g ∧ g ≤ INT32_MAX from h)]
  rw [processLine_of_ok _ _ (by rw [hf]), hf]

theorem processLine_formatInt_of_not_fits (secret_number g : Int) (h : ¬ fitsInt32 g) :
    processLine secret_number (formatInt g) =
      ⟨RoundOutcome.ParseError, [invalidInputText], false⟩ := by
  have hf : from_chars (formatInt g).toList 0 =
      (⟨(formatInt g).toList.length, errc.result_out_of_range⟩, 0) := by
    rw [from_chars_formatInt, if_neg (show ¬ (INT32_MIN ≤ g ∧ g ≤ INT32_MAX) from h)]
  exact processLine_of_error _ _ (by rw [hf]; simp)

theorem broke_iff_win (secret_number : Int) (guess_str : String) :
    (processLine secret_number guess_str).broke = true ↔
      (processLine secret_number guess_str).outcome = RoundOutcome.Win := by
  by_cases h : (from_chars guess_str.toList 0).1.ec = errc.ok
  · rw [processLine_of_ok _ _ h]
    split_ifs <;> simp
  · rw [processLine_of_error _ _ h]
    simp

theorem broke_eq_false_of_not_win (secret_number : Int) (guess_str : String)
    (h : (processLine secret_number guess_str).outcome ≠ RoundOutcome.Win) :
    (processLine secret_number guess_str).broke = false := by
  cases hb : (processLine secret_number guess_str).broke with
  | false => rfl
  | true => exact absurd ((broke_iff_win _ _).mp hb) h

theorem win_iff_parsedGuess (s : Int) (hs : 1 ≤ s ∧ s ≤ 100) (guess_str : String) :
    (processLine s guess_str).outcome = RoundOutcome.Win ↔ parsedGuess guess_str = some s := by
  by_cases h : (from_chars guess_str.toList 0).1.ec = errc.ok
  · have hp : parsedGuess guess_str = some (from_chars guess_str.toList 0).2 := by
      simp only [String.toList] at h
      simp [parsedGuess, h]
    rw [processLine_of_ok _ _ h, hp]
    split_ifs with h1 h2 h3
    · simp only [reduceCtorEq, Option.some.injEq, false_iff]
      omega
    · simp only [reduceCtorEq, Option.some.injEq, false_iff]
      omega
    · simp only [reduceCtorEq, Option.some.injEq, false_iff]
      omega
    · simp only [Option.some.injEq, true_iff]
      omega
  · have hp : parsedGuess guess_str = none := by
      simp only [String.toList] at h
      simp [parsedGuess, h]
    rw [processLine_of_error _ _ h, hp]
    simp

theorem youWinText_not_mem_of_not_win (secret_number : Int) (guess_str : String)
    (h : (processLine secret_number guess_str).outcome ≠ RoundOutcome.Win) :
    youWinText ∉ (processLine secret_number guess_str).cout := by
  have hg : ∀ n : Int, youWinText ≠ guessedText n :=
    fun n e => guessedText_ne n youWinText (by decide) e.symm
  by_cases hk : (from_chars guess_str.toList 0).1.ec = errc.ok
  · rw [processLine_of_ok _ _ hk] at h ⊢
    split_ifs at h ⊢ with h1 h2 h3
    · simp only [List.mem_cons, List.mem_singleton, List.not_mem_nil, or_false, not_or]
      exact ⟨hg _, by decide⟩
    · simp only [List.mem_cons, List.mem_singleton, List.not_mem_nil, or_false, not_or]
      exact ⟨hg _, by decide⟩
    · simp only [List.mem_cons, List.mem_singleton, List.not_mem_nil, or_false, not_or]
      exact ⟨hg _, by decide⟩
    · exact absurd rfl h
  · rw [processLine_of_error _ _ hk]
    decide

/-- A run in which no line wins reads every line and ends at the failed read. -/
theorem gameLoop_of_no_win (secret_number : Int) (lines : List String)
    (h : ∀ l ∈ lines, (processLine secret_number l).outcome ≠ RoundOutcome.Win) :
    (gameLoop secret_number lines).status = 1 ∧
    (gameLoop secret_number lines).cerr = [failedReadText] ∧
    (gameLoop secret_number lines).unread = [] ∧
    (gameLoop secret_number lines).outcomes =
      lines.map (fun l => (processLine secret_number l).outcome) ∧
    youWinText ∉ (gameLoop secret_number lines).cout := by
  induction lines with
  | nil =>
    refine ⟨rfl, rfl, rfl, rfl, ?_⟩
    simp only [gameLoop]
    decide
  | cons l rest ih =>
    have hl := h l (by simp)
    obtain ⟨i1, i2, i3, i4, i5⟩ := ih (fun x hx => h x (by simp [hx]))
    rw [gameLoop_cons_of_not_broke _ _ _ (broke_eq_false_of_not_win _ _ hl)]
    refine ⟨i1, i2, i3, ?_, ?_⟩
    · simp [continueWith, i4]
    · simp only [continueWith, List.mem_cons, List.mem_append, not_or]
      exact ⟨by decide, youWinText_not_mem_of_not_win _ _ hl, i5⟩

/-- A run up to and including the first winning line. -/
theorem gameLoop_first_win (secret_number : Int) (pre : List String) (w : String)
    (post : List String)
    (hpre : ∀ l ∈ pre, (processLine secret_number l).outcome ≠ RoundOutcome.Win)
    (hw : (processLine secret_number w).outcome = RoundOutcome.Win) :
    (gameLoop secret_number (pre ++ w :: post)).status = 0 ∧
    (gameLoop secret_number (pre ++ w :: post)).cerr = [] ∧
    (gameLoop secret_number (pre ++ w :: post)).unread = post ∧
    (gameLoop secret_number (pre ++ w :: post)).outcomes =
      pre.map (fun l => (processLine secret_number l).outcome) ++ [RoundOutcome.Win] := by
  induction pre with
  | nil =>
    rw [List.nil_append, gameLoop_cons_of_broke _ _ _ ((broke_iff_win _ _).mpr hw)]
    simp [hw]
  | cons l rest ih =>
    have hl := hpre l (by simp)
    obtain ⟨i1, i2, i3, i4⟩ := ih (fun x hx => hpre x (by simp [hx]))
    rw [List.cons_append, gameLoop_cons_of_not_broke _ _ _ (broke_eq_false_of_not_win _ _ hl)]
    refine ⟨i1, i2, i3, ?_⟩
    simp [continueWith, i4]

theorem not_win_of_isRejected (secret_number : Int) (guess_str : String)
    (h : isRejected (processLine secret_number guess_str).outcome = true) :
    (processLine secret_number guess_str).outcome ≠ RoundOutcome.Win := by
  intro e
  rw [e] at h
  exact absurd h (by decide)

/-- Removing the rejected lines changes neither the end of the run nor the outcomes that are
left. -/
theorem gameLoop_filter_rejected (s : Int) (lines : List String) :
    (gameLoop s (lines.filter (fun l => !isRejected (processLine s l).outcome))).status =
      (gameLoop s lines).status ∧
    (gameLoop s (lines.filter (fun l => !isRejected (processLine s l).outcome))).cerr =
      (gameLoop s lines).cerr ∧
    (gameLoop s (lines.filter (fun l => !isRejected (processLine s l).outcome))).outcomes =
      (gameLoop s lines).outcomes.filter (fun o => !isRejected o) := by
  induction lines with
  | nil => exact ⟨rfl, rfl, rfl⟩
  | cons l rest ih =>
    obtain ⟨i1, i2, i3⟩ := ih
    cases hrej : isRejected (processLine s l).outcome with
    | true =>
      rw [List.filter_cons_of_neg (by simp [hrej]),
        gameLoop_cons_of_not_broke s l rest
          (broke_eq_false_of_not_win _ _ (not_win_of_isRejected _ _ hrej))]
      refine ⟨i1, i2, ?_⟩
      simp [continueWith, hrej, i3]
    | false =>
      rw [List.filter_cons_of_pos (by simp [hrej])]
      cases hb : (processLine s l).broke with
      | true =>
        rw [gameLoop_cons_of_broke _ _ _ hb, gameLoop_cons_of_broke _ _ _ hb]
        simp [hrej]
      | false =>
        rw [gameLoop_cons_of_not_broke _ _ _ hb, gameLoop_cons_of_not_broke _ _ _ hb]
        refine ⟨i1, i2, ?_⟩
        simp [continueWith, hrej, i3]

/-- The outcomes of a run are those of the lines it read, in order, under the one secret. -/
theorem gameLoop_outcomes (s : Int) (lines : List String) :
    (gameLoop s lines).outcomes =
      (lines.take (gameLoop s lines).outcomes.length).map
        (fun l => (processLine s l).outcome) ∧
    (gameLoop s lines).unread = lines.drop (gameLoop s lines).outcomes.length := by
  induction lines with
  | nil => exact ⟨rfl, rfl⟩
  | cons l rest ih =>
    cases hb : (processLine s l).broke with
    | true =>
      rw [gameLoop_cons_of_broke _ _ _ hb]
      simp
    | false =>
      rw [gameLoop_cons_of_not_broke _ _ _ hb]
      simp only [continueWith, List.length_cons, List.take_succ_cons, List.map_cons,
        List.drop_succ_cons]
      exact ⟨by rw [← ih.1], ih.2⟩

theorem accumulate_zeros_append (k : Nat) (ds : List Char) :
    accumulate (List.replicate k '0' ++ ds) = accumulate ds := by
  have hz : ∀ k : Nat, (List.replicate k '0').foldl (fun a c => a * 10 + digitValue c) 0 = 0 := by
    intro k
    induction k with
    | zero => rfl
    | succ k ih =>
      rw [List.replicate_succ, List.foldl_cons]
      exact ih
  simp only [accumulate, List.foldl_append, hz]

theorem from_chars_zeros_append (k n : Nat) (value : Int) :
    (from_chars (List.replicate k '0' ++ Nat.toDigits 10 n) value).1.ec =
        (from_chars (Nat.toDigits 10 n) value).1.ec ∧
    (from_chars (List.replicate k '0' ++ Nat.toDigits 10 n) value).2 =
        (from_chars (Nat.toDigits 10 n) value).2 := by
  have hd : ∀ c ∈ List.replicate k '0' ++ Nat.toDigits 10 n, c.isDigit = true := by
    intro c hc
    rcases List.mem_append.mp hc with h | h
    · rw [(List.mem_replicate.mp h).2]
      decide
    · exact toDigits_isDigit n c h
  have hne : List.replicate k '0' ++ Nat.toDigits 10 n ≠ [] := by
    simp [toDigits_ne_nil n]
  rw [from_chars_digits _ hne hd, from_chars_digits _ (toDigits_ne_nil n) (toDigits_isDigit n),
    accumulate_zeros_append]
  split_ifs <;> exact ⟨rfl, rfl⟩

/-- The pass depends on the line only through the error code and the value of `from_chars`. -/
theorem processLine_congr (secret_number : Int) (a b : String)
    (hec : (from_chars a.toList 0).1.ec = (from_chars b.toList 0).1.ec)
    (hv : (from_chars a.toList 0).2 = (from_chars b.toList 0).2) :
    processLine secret_number a = processLine secret_number b := by
  by_cases h : (from_chars b.toList 0).1.ec = errc.ok
  · rw [processLine_of_ok _ _ h, processLine_of_ok _ _ (hec.trans h), hv]
  · rw [processLine_of_error _ _ h, processLine_of_error _ _ (by rw [hec]; exact h)]

/-! ## The claims -/

/-- C1, as stated, fails: the lines `12abc` and `3.14` are not base-10 integers as whole
strings, yet with secret 42 they are handled as the guesses 12 and 3 and answered with
`Too small!`, not with the invalid-input message. -/
theorem C1_counterexample :
    isDecimalInteger "12abc" = false ∧
    processLine 42 "12abc" =
      ⟨RoundOutcome.TooLow, ["You guessed: 12\n", "Too small!\n"], false⟩ ∧
    isDecimalInteger "3.14" = false ∧
    processLine 42 "3.14" =
      ⟨RoundOutcome.TooLow, ["You guessed: 3\n", "Too small!\n"], false⟩ := by
  decide

/-- C1, amended: for every secret, a line that does not begin with a base-10 integer (neither
a decimal digit nor a minus sign directly followed by one, so the empty line, `abc`, a line
of spaces) is classified ParseError: the pass writes the invalid-input message and nothing
else (no `You guessed` line, no out-of-range or comparison message), does not leave the
loop, and the run goes on with the next read. -/
theorem C1_no_leading_integer_is_ParseError (secret_number : Int) (guess_str : String)
    (rest : List String) (h : beginsWithInteger guess_str = false) :
    processLine secret_number guess_str =
      ⟨RoundOutcome.ParseError, [invalidInputText], false⟩ ∧
    (∀ n : Int, guessedText n ∉ (processLine secret_number guess_str).cout) ∧
    outOfRangeText ∉ (processLine secret_number guess_str).cout ∧
    tooSmallText ∉ (processLine secret_number guess_str).cout ∧
    tooBigText ∉ (processLine secret_number guess_str).cout ∧
    youWinText ∉ (processLine secret_number guess_str).cout ∧
    gameLoop secret_number (guess_str :: rest) =
      continueWith ⟨RoundOutcome.ParseError, [invalidInputText], false⟩
        (gameLoop secret_number rest) := by
  have hp : processLine secret_number guess_str =
      ⟨RoundOutcome.ParseError, [invalidInputText], false⟩ :=
    processLine_of_error _ _ (by rw [from_chars_no_leading_integer _ _ h]; decide)
  refine ⟨hp, ?_, ?_, ?_, ?_, ?_, ?_⟩
  · intro n hn
    rw [hp] at hn
    exact guessedText_ne n invalidInputText (by decide) (List.mem_singleton.mp hn)
  · rw [hp]; decide
  · rw [hp]; decide
  · rw [hp]; decide
  · rw [hp]; decide
  · rw [gameLoop_cons_of_not_broke _ _ _ (by rw [hp]), hp]

/-- C1 at the secret 42 and the line `abc`, followed by the line `42`. -/
theorem C1_no_leading_integer_is_ParseError_witness :
    beginsWithInteger "abc" = false ∧
    processLine 42 "abc" = ⟨RoundOutcome.ParseError, [invalidInputText], false⟩ ∧
    gameLoop 42 ["abc", "42"] =
      continueWith ⟨RoundOutcome.ParseError, [invalidInputText], false⟩ (gameLoop 42 ["42"]) :=
  ⟨by decide, (C1_no_leading_integer_is_ParseError 42 "abc" ["42"] (by decide)).1,
    (C1_no_leading_integer_is_ParseError 42 "abc" ["42"] (by decide)).2.2.2.2.2.2⟩

/-- C2, as stated, fails: 2147483648 is greater than 100, but its decimal text does not fit
`int32_t`, `from_chars` reports `result_out_of_range`, and the line is answered with the
invalid-input message (ParseError), not with the out-of-range message. -/
theorem C2_counterexample :
    (2147483648 : Int) > 100 ∧
    formatInt 2147483648 = "2147483648" ∧
    processLine 42 "2147483648" =
      ⟨RoundOutcome.ParseError, ["Error. Invalid input. Please enter a valid number.\n"],
        false⟩ := by
  decide

/-- C2, amended: for every secret and every integer `g` outside 1..100, the line holding the
decimal text of `g` is classified RangeError exactly when `g` is a value of `int32_t`: then
the pass writes `You guessed: g` and the out-of-range message; when `g` does not fit in 32
bits the line is classified ParseError with the invalid-input message. In both cases no
comparison message is written, the loop is not left and the run goes on with the next
read. -/
theorem C2_out_of_range_text (secret_number g : Int) (rest : List String)
    (h : g < 1 ∨ 100 < g) :
    processLine secret_number (formatInt g) =
      (if fitsInt32 g then
        ⟨RoundOutcome.RangeError, [guessedText g, outOfRangeText], false⟩
      else ⟨RoundOutcome.ParseError, [invalidInputText], false⟩) ∧
    (outOfRangeText ∈ (processLine secret_number (formatInt g)).cout ↔ fitsInt32 g) ∧
    (invalidInputText ∈ (processLine secret_number (formatInt g)).cout ↔ ¬ fitsInt32 g) ∧
    tooSmallText ∉ (processLine secret_number (formatInt g)).cout ∧
    tooBigText ∉ (processLine secret_number (formatInt g)).cout ∧
    youWinText ∉ (processLine secret_number (formatInt g)).cout ∧
    gameLoop secret_number (formatInt g :: rest) =
      continueWith (processLine secret_number (formatInt g))
        (gameLoop secret_number rest) := by
  have hg1 : ∀ t : String, t.toList.take 5 ≠ ['Y', 'o', 'u', ' ', 'g'] → t ≠ guessedText g :=
    fun t ht e => guessedText_ne g t ht e.symm
  by_cases hf : fitsInt32 g
  · have hp : processLine secret_number (formatInt g) =
        ⟨RoundOutcome.RangeError, [guessedText g, outOfRangeText], false⟩ := by
      rw [processLine_formatInt_of_fits _ _ hf, if_pos (by omega)]
    refine ⟨by rw [hp, if_pos hf], ?_, ?_, ?_, ?_, ?_, ?_⟩
    · rw [hp]; simp [hf]
    · rw [hp]
      simp only [List.mem_cons, List.mem_singleton, List.not_mem_nil, or_false, hf,
        not_true_eq_false, iff_false, not_or]
      exact ⟨hg1 _ (by decide), by decide⟩
    · rw [hp]
      simp only [List.mem_cons, List.mem_singleton, List.not_mem_nil, or_false, not_or]
      exact ⟨hg1 _ (by decide), by decide⟩
    · rw [hp]
      simp only [List.mem_cons, List.mem_singleton, List.not_mem_nil, or_false, not_or]
      exact ⟨hg1 _ (by decide), by decide⟩
    · rw [hp]
      simp only [List.mem_cons, List.mem_singleton, List.not_mem_nil, or_false, not_or]
      exact ⟨hg1 _ (by decide), by decide⟩
    · exact gameLoop_cons_of_not_broke _ _ _ (by rw [hp])
  · have hp : processLine secret_number (formatInt g) =
        ⟨RoundOutcome.ParseError, [invalidInputText], false⟩ :=
      processLine_formatInt_of_not_fits _ _ hf
    refine ⟨by rw [hp, if_neg hf], ?_, ?_, ?_, ?_, ?_, ?_⟩
    · rw [hp]
      simp only [List.mem_singleton, hf, iff_false]
      decide
    · rw [hp]; simp [hf]
    · rw [hp]; decide
    · rw [hp]; decide
    · rw [hp]; decide
    · exact gameLoop_cons_of_not_broke _ _ _ (by rw [hp])

/-- C2 at the secret 42 and the guess 150, followed by the line `42`. -/
theorem C2_out_of_range_text_witness :
    ((150 : Int) < 1 ∨ (100 : Int) < 150) ∧
    processLine 42 (formatInt 150) =
      (if fitsInt32 150 then
        ⟨RoundOutcome.RangeError, [guessedText 150, outOfRangeText], false⟩
      else ⟨RoundOutcome.ParseError, [invalidInputText], false⟩) ∧
    gameLoop 42 [formatInt 150, "42"] =
      continueWith (processLine 42 (formatInt 150)) (gameLoop 42 ["42"]) :=
  ⟨by decide, (C2_out_of_range_text 42 150 ["42"] (by decide)).1,
    (C2_out_of_range_text 42 150 ["42"] (by decide)).2.2.2.2.2.2⟩

/-- C3: for every secret `s` (in 1..100 or not) and every guess `g` in 1..100 with `g ≠ s`,
the line holding the decimal text of `g` is classified TooLow or TooHigh, TooLow (with `Too small!`) exactly when
`g < s` and TooHigh (with `Too big!`) exactly when `g > s`; the loop is not left and the
run goes on with the next read. -/
theorem C3_too_low_too_high (s g : Int) (rest : List String)
    (hg : 1 ≤ g ∧ g ≤ 100) (hne : g ≠ s) :
    ((processLine s (formatInt g)).outcome = RoundOutcome.TooLow ∨
      (processLine s (formatInt g)).outcome = RoundOutcome.TooHigh) ∧
    ((processLine s (formatInt g)).outcome = RoundOutcome.TooLow ↔ g < s) ∧
    ((processLine s (formatInt g)).outcome = RoundOutcome.TooHigh ↔ s < g) ∧
    ((processLine s (formatInt g)).cout = [guessedText g, tooSmallText] ↔ g < s) ∧
    ((processLine s (formatInt g)).cout = [guessedText g, tooBigText] ↔ s < g) ∧
    (processLine s (formatInt g)).broke = false ∧
    gameLoop s (formatInt g :: rest) =
      continueWith (processLine s (formatInt g)) (gameLoop s rest) := by
  have hf : fitsInt32 g := by
    simp only [fitsInt32, INT32_MIN, INT32_MAX]
    omega
  have hr : ¬ (g < 1 ∨ g > 100) := by omega
  have hts : tooSmallText ≠ tooBigText := by decide
  rcases lt_or_gt_of_ne hne with hlt | hgt
  · have hp : processLine s (formatInt g) =
        ⟨RoundOutcome.TooLow, [guessedText g, tooSmallText], false⟩ := by
      rw [processLine_formatInt_of_fits _ _ hf, if_neg hr, if_pos hlt]
    have hn : ¬ s < g := by omega
    refine ⟨Or.inl (by rw [hp]), ?_, ?_, ?_, ?_, by rw [hp],
      gameLoop_cons_of_not_broke _ _ _ (by rw [hp])⟩
    · rw [hp]; simp [hlt]
    · rw [hp]; simp [hn]
    · rw [hp]; simp [hlt]
    · rw [hp]; simp [hn, hts]
  · have hp : processLine s (formatInt g) =
        ⟨RoundOutcome.TooHigh, [guessedText g, tooBigText], false⟩ := by
      rw [processLine_formatInt_of_fits _ _ hf, if_neg hr, if_neg (by omega), if_pos hgt]
    have hn : ¬ g < s := by omega
    have hgt2 : s < g := hgt
    refine ⟨Or.inr (by rw [hp]), ?_, ?_, ?_, ?_, by rw [hp],
      gameLoop_cons_of_not_broke _ _ _ (by rw [hp])⟩
    · rw [hp]; simp [hn]
    · rw [hp]; simp [hgt2]
    · rw [hp]; simp [hn, hts.symm]
    · rw [hp]; simp [hgt2]

/-- C3 at the secret 42 and the guess 10, followed by the line `42`. -/
theorem C3_too_low_too_high_witness :
    ((1 : Int) ≤ 10 ∧ (10 : Int) ≤ 100) ∧
    (10 : Int) ≠ 42 ∧
    ((processLine 42 (formatInt 10)).outcome = RoundOutcome.TooLow ↔ (10 : Int) < 42) ∧
    gameLoop 42 [formatInt 10, "42"] =
      continueWith (processLine 42 (formatInt 10)) (gameLoop 42 ["42"]) :=
  ⟨by decide, by decide,
    (C3_too_low_too_high 42 10 ["42"] (by decide) (by decide)).2.1,
    (C3_too_low_too_high 42 10 ["42"] (by decide) (by decide)).2.2.2.2.2.2⟩

/-- C4: for every secret `s` in 1..100 (drawn by the random source `src`) and every input
`pre ++ w :: post` in which `w` is the first line whose parsed value is `s`: `w` is
classified Win and `You win!!` is written, the outcomes of the run are those of the lines
of `pre` followed by Win and none of the former is Win, the lines of `post` are never read,
nothing is written to `std::cerr`, and `main` returns 0; a line is classified Win exactly
when its parsed value is `s`. -/
theorem C4_first_win_ends_run (src : RandomSource) (s : Int) (pre : List String) (w : String)
    (post : List String) (hsrc : drawSecret src = s) (hs : 1 ≤ s ∧ s ≤ 100)
    (hpre : ∀ l ∈ pre, parsedGuess l ≠ some s) (hw : parsedGuess w = some s) :
    processLine s w = ⟨RoundOutcome.Win, [guessedText s, youWinText], true⟩ ∧
    (main src (pre ++ w :: post)).outcomes =
      pre.map (fun l => (processLine s l).outcome) ++ [RoundOutcome.Win] ∧
    RoundOutcome.Win ∉ pre.map (fun l => (processLine s l).outcome) ∧
    (main src (pre ++ w :: post)).unread = post ∧
    (main src (pre ++ w :: post)).cerr = [] ∧
    (main src (pre ++ w :: post)).status = 0 ∧
    (∀ line : String,
      (processLine s line).outcome = RoundOutcome.Win ↔ parsedGuess line = some s) := by
  have hpre2 : ∀ l ∈ pre, (processLine s l).outcome ≠ RoundOutcome.Win :=
    fun l hl e => hpre l hl ((win_iff_parsedGuess s hs l).mp e)
  have hw2 : (processLine s w).outcome = RoundOutcome.Win := (win_iff_parsedGuess s hs w).mpr hw
  obtain ⟨g1, g2, g3, g4⟩ := gameLoop_first_win s pre w post hpre2 hw2
  refine ⟨?_, ?_, ?_, ?_, ?_, ?_, win_iff_parsedGuess s hs⟩
  · have hk : (from_chars w.toList 0).1.ec = errc.ok := by
      by_contra hk
      rw [processLine_of_error _ _ hk] at hw2
      exact absurd hw2 (by decide)
    have hv : (from_chars w.toList 0).2 = s := by
      have hp : parsedGuess w = some (from_chars w.toList 0).2 := by
        simp only [String.toList] at hk
        simp [parsedGuess, hk]
      rw [hp] at hw
      exact Option.some.inj hw
    rw [processLine_of_ok _ _ hk, hv, if_neg (by omega), if_neg (by omega), if_neg (by omega)]
  · simpa [main, hsrc] using g4
  · intro hmem
    obtain ⟨l, hl, e⟩ := List.mem_map.mp hmem
    exact hpre2 l hl e
  · simpa [main, hsrc] using g3
  · simpa [main, hsrc] using g2
  · simpa [main, hsrc] using g1

/-- C4 at the secret 42 and the input `abc`, `10`, `42`, `43`. -/
theorem C4_first_win_ends_run_witness :
    drawSecret ⟨fun _ _ _ => 42⟩ = 42 ∧ ((1 : Int) ≤ 42 ∧ (42 : Int) ≤ 100) ∧
    parsedGuess "42" = some 42 ∧
    (main ⟨fun _ _ _ => 42⟩ (["abc", "10"] ++ "42" :: ["43"])).unread = ["43"] ∧
    (main ⟨fun _ _ _ => 42⟩ (["abc", "10"] ++ "42" :: ["43"])).status = 0 :=
  ⟨rfl, by decide, by decide,
    (C4_first_win_ends_run ⟨fun _ _ _ => 42⟩ 42 ["abc", "10"] "42" ["43"] rfl (by decide)
      (by decide) (by decide)).2.2.2.1,
    (C4_first_win_ends_run ⟨fun _ _ _ => 42⟩ 42 ["abc", "10"] "42" ["43"] rfl (by decide)
      (by decide) (by decide)).2.2.2.2.2.1⟩

/-- C5: for every secret `s` (drawn by the random source `src`) and every finite input, the
empty one included, in which no line is classified Win: every line is read, the read after
the last line fails, `Failed to read line` is written to `std::cerr`, `main` returns 1, and
`You win!!` is never written. An empty line that was read is not a failed read: it is
classified ParseError and the run goes on with the next read. -/
theorem C5_end_of_input_without_win (src : RandomSource) (s : Int) (lines : List String)
    (hsrc : drawSecret src = s)
    (h : ∀ l ∈ lines, (processLine s l).outcome ≠ RoundOutcome.Win) :
    (main src lines).status = 1 ∧
    (main src lines).cerr = [failedReadText] ∧
    youWinText ∉ (main src lines).cout ∧
    (main src lines).unread = [] ∧
    (main src lines).outcomes = lines.map (fun l => (processLine s l).outcome) ∧
    processLine s "" = ⟨RoundOutcome.ParseError, [invalidInputText], false⟩ ∧
    gameLoop s ("" :: lines) =
      continueWith ⟨RoundOutcome.ParseError, [invalidInputText], false⟩ (gameLoop s lines) := by
  obtain ⟨g1, g2, g3, g4, g5⟩ := gameLoop_of_no_win s lines h
  have he : processLine s "" = ⟨RoundOutcome.ParseError, [invalidInputText], false⟩ :=
    processLine_of_error _ _ (by decide)
  refine ⟨?_, ?_, ?_, ?_, ?_, he, ?_⟩
  · simpa [main, hsrc] using g1
  · simpa [main, hsrc] using g2
  · simp only [main, hsrc, List.mem_cons, not_or]
    exact ⟨fun e => secretText_ne_youWinText s e.symm, by decide, g5⟩
  · simpa [main, hsrc] using g3
  · simpa [main, hsrc] using g4
  · rw [gameLoop_cons_of_not_broke _ _ _ (by rw [he]), he]

/-- C5 at the secret 7, for the empty input and for the input `abc`, `5`. -/
theorem C5_end_of_input_without_win_witness :
    drawSecret ⟨fun _ _ _ => 7⟩ = 7 ∧
    (main ⟨fun _ _ _ => 7⟩ []).status = 1 ∧
    (main ⟨fun _ _ _ => 7⟩ []).cerr = [failedReadText] ∧
    youWinText ∉ (main ⟨fun _ _ _ => 7⟩ []).cout ∧
    (processLine 7 "abc").outcome ≠ RoundOutcome.Win ∧
    (processLine 7 "5").outcome ≠ RoundOutcome.Win ∧
    (main ⟨fun _ _ _ => 7⟩ ["abc", "5"]).status = 1 ∧
    youWinText ∉ (main ⟨fun _ _ _ => 7⟩ ["abc", "5"]).cout :=
  ⟨rfl,
    (C5_end_of_input_without_win ⟨fun _ _ _ => 7⟩ 7 [] rfl (by decide)).1,
    (C5_end_of_input_without_win ⟨fun _ _ _ => 7⟩ 7 [] rfl (by decide)).2.1,
    (C5_end_of_input_without_win ⟨fun _ _ _ => 7⟩ 7 [] rfl (by decide)).2.2.1,
    by decide, by decide,
    (C5_end_of_input_without_win ⟨fun _ _ _ => 7⟩ 7 ["abc", "5"] rfl (by decide)).1,
    (C5_end_of_input_without_win ⟨fun _ _ _ => 7⟩ 7 ["abc", "5"] rfl (by decide)).2.2.1⟩

/-- C6: with the secret 42 (drawn by the random source `src`) and the input `abc`, `150`,
`10`, `42`, the outcomes are ParseError, RangeError, TooLow, Win, the four lines are read
and no fifth read is made (lines that follow stay unread), and `main` returns 0. -/
theorem C6_scenario (src : RandomSource) (extra : List String) (hsrc : drawSecret src = 42) :
    main src ["abc", "150", "10", "42"] =
      ⟨["The secret number is: 42\n", "Guess the number!\n",
        "Please input your guess.\n", "Error. Invalid input. Please enter a valid number.\n",
        "Please input your guess.\n", "You guessed: 150\n",
        "Error: Please enter a number between 1 and 100.\n",
        "Please input your guess.\n", "You guessed: 10\n", "Too small!\n",
        "Please input your guess.\n", "You guessed: 42\n", "You win!!\n"],
       [], 0,
       [RoundOutcome.ParseError, RoundOutcome.RangeError, RoundOutcome.TooLow,
        RoundOutcome.Win],
       []⟩ ∧
    (main src (["abc", "150", "10", "42"] ++ extra)).outcomes =
      [RoundOutcome.ParseError, RoundOutcome.RangeError, RoundOutcome.TooLow,
        RoundOutcome.Win] ∧
    (main src (["abc", "150", "10", "42"] ++ extra)).unread = extra ∧
    (main src (["abc", "150", "10", "42"] ++ extra)).status = 0 := by
  simp only [main, hsrc]
  exact ⟨by decide, rfl, rfl, rfl⟩

/-- C6 with a random source that always draws 42 and a fifth line `99`. -/
theorem C6_scenario_witness :
    drawSecret ⟨fun _ _ _ => 42⟩ = 42 ∧
    (main ⟨fun _ _ _ => 42⟩ ["abc", "150", "10", "42"]).outcomes =
      [RoundOutcome.ParseError, RoundOutcome.RangeError, RoundOutcome.TooLow,
        RoundOutcome.Win] ∧
    (main ⟨fun _ _ _ => 42⟩ ["abc", "150", "10", "42"]).status = 0 ∧
    (main ⟨fun _ _ _ => 42⟩ (["abc", "150", "10", "42"] ++ ["99"])).unread = ["99"] :=
  ⟨rfl,
    congrArg Run.outcomes (C6_scenario ⟨fun _ _ _ => 42⟩ ["99"] rfl).1,
    congrArg Run.status (C6_scenario ⟨fun _ _ _ => 42⟩ ["99"] rfl).1,
    (C6_scenario ⟨fun _ _ _ => 42⟩ ["99"] rfl).2.2.1⟩

/-- C7: for every secret `s`, for every random source `src` and every input, removing the
lines classified ParseError or RangeError leaves the value returned by `main` and what is
written to `std::cerr` unchanged, and the outcomes of the shortened run are the outcomes of
the full run without its ParseError and RangeError entries; after a rejected line `l` the
run is exactly the run on the remaining lines, so nothing is carried over from `l`. -/
theorem C7_rejected_lines_do_not_propagate (src : RandomSource) (s : Int)
    (lines : List String) (l : String) (rest : List String) :
    (main src (lines.filter
        (fun x => !isRejected (processLine (drawSecret src) x).outcome))).status =
      (main src lines).status ∧
    (main src (lines.filter
        (fun x => !isRejected (processLine (drawSecret src) x).outcome))).outcomes =
      (main src lines).outcomes.filter (fun o => !isRejected o) ∧
    (gameLoop s (lines.filter (fun x => !isRejected (processLine s x).outcome))).status =
      (gameLoop s lines).status ∧
    (gameLoop s (lines.filter (fun x => !isRejected (processLine s x).outcome))).cerr =
      (gameLoop s lines).cerr ∧
    (gameLoop s (lines.filter (fun x => !isRejected (processLine s x).outcome))).outcomes =
      (gameLoop s lines).outcomes.filter (fun o => !isRejected o) ∧
    (isRejected (processLine s l).outcome = false ∨
      gameLoop s (l :: rest) = continueWith (processLine s l) (gameLoop s rest)) := by
  obtain ⟨m1, _, m3⟩ := gameLoop_filter_rejected (drawSecret src) lines
  obtain ⟨g1, g2, g3⟩ := gameLoop_filter_rejected s lines
  refine ⟨by simpa [main] using m1, by simpa [main] using m3, g1, g2, g3, ?_⟩
  cases hrej : isRejected (processLine s l).outcome with
  | false => exact Or.inl rfl
  | true =>
    exact Or.inr (gameLoop_cons_of_not_broke _ _ _
      (broke_eq_false_of_not_win _ _ (not_win_of_isRejected _ _ hrej)))

/-- C8: the secret is the first draw of the random source, made with the bounds 1 and 100.
When the source honours its bounds the secret lies in 1..100, and both bounds are inclusive:
every value of 1..100 is the secret of some source that honours its bounds. The secret is
the number printed at the start, and it is never drawn again or modified: the outcome of
every pass is the outcome of its line under that first draw, the loop is the loop run with
that value, and a source that agrees on the first draw over (1, 100), whatever its later
draws and its draws over other bounds, gives the same run. -/
theorem C8_secret_in_range_and_fixed (src : RandomSource) (stdin : List String)
    (h : src.honoursBounds) :
    drawSecret src = src.draw 1 100 0 ∧
    1 ≤ drawSecret src ∧ drawSecret src ≤ 100 ∧
    (∀ v : Int, 1 ≤ v → v ≤ 100 →
      ∃ src2 : RandomSource, src2.honoursBounds ∧ drawSecret src2 = v) ∧
    (main src stdin).cout.head? = some (secretText (src.draw 1 100 0)) ∧
    (main src stdin).outcomes =
      (stdin.take (main src stdin).outcomes.length).map
        (fun l => (processLine (src.draw 1 100 0) l).outcome) ∧
    (main src stdin).unread = stdin.drop (main src stdin).outcomes.length ∧
    main src stdin =
      { gameLoop (src.draw 1 100 0) stdin with
        cout := secretText (src.draw 1 100 0) :: guessTheNumberText ::
          (gameLoop (src.draw 1 100 0) stdin).cout } ∧
    (∀ src2 : RandomSource, src2.draw 1 100 0 = src.draw 1 100 0 →
      main src2 stdin = main src stdin) := by
  obtain ⟨h1, h2⟩ := h 1 100 0 (by decide)
  obtain ⟨g1, g2⟩ := gameLoop_outcomes (drawSecret src) stdin
  refine ⟨rfl, h1, h2, ?_, rfl, g1, g2, rfl, ?_⟩
  · intro v hv1 hv2
    refine ⟨⟨fun a b _ => if a ≤ v ∧ v ≤ b then v else a⟩, ?_, ?_⟩
    · intro a b i hab
      simp only []
      split_ifs with hc
      · exact hc
      · exact ⟨le_refl a, hab⟩
    · simp only [drawSecret]
      rw [if_pos ⟨hv1, hv2⟩]
  · intro src2 h2
    simp only [main, drawSecret, h2]

/-- C8 with a random source whose successive draws differ (42, then 43, ...), and the input
`10`, `43`, `42`, `50`: the second line is compared with 42, not with a second draw. -/
theorem C8_secret_in_range_and_fixed_witness :
    RandomSource.honoursBounds ⟨fun a b i => min b (a + 41 + i)⟩ ∧
    RandomSource.draw ⟨fun a b i => min b (a + 41 + i)⟩ 1 100 1 = 43 ∧
    drawSecret ⟨fun a b i => min b (a + 41 + i)⟩ = 42 ∧
    (1 ≤ drawSecret ⟨fun a b i => min b (a + 41 + i)⟩ ∧
      drawSecret ⟨fun a b i => min b (a + 41 + i)⟩ ≤ 100) ∧
    (main ⟨fun a b i => min b (a + 41 + i)⟩ ["10", "43", "42", "50"]).outcomes =
      [RoundOutcome.TooLow, RoundOutcome.TooHigh, RoundOutcome.Win] :=
  ⟨fun a b i hab => by constructor <;> (simp only []; omega), by decide, by decide,
    ⟨(C8_secret_in_range_and_fixed ⟨fun a b i => min b (a + 41 + i)⟩ ["10", "43", "42", "50"]
      (fun a b i hab => by constructor <;> (simp only []; omega))).2.1,
    (C8_secret_in_range_and_fixed ⟨fun a b i => min b (a + 41 + i)⟩ ["10", "43", "42", "50"]
      (fun a b i hab => by constructor <;> (simp only []; omega))).2.2.1⟩,
    by decide⟩

/-- C9: for every line and every two secrets `s1` and `s2` (in 1..100 or not), when the line
is classified ParseError or RangeError under `s1`, the pass under `s2` has the same outcome,
writes the same text and, like it, does not leave the loop. -/
theorem C9_rejection_independent_of_secret (guess_str : String) (s1 s2 : Int)
    (h : isRejected (processLine s1 guess_str).outcome = true) :
    processLine s2 guess_str = processLine s1 guess_str ∧
    (processLine s2 guess_str).outcome = (processLine s1 guess_str).outcome ∧
    (processLine s2 guess_str).cout = (processLine s1 guess_str).cout ∧
    (processLine s2 guess_str).broke = false := by
  have key : processLine s2 guess_str = processLine s1 guess_str := by
    by_cases hk : (from_chars guess_str.toList 0).1.ec = errc.ok
    · rw [processLine_of_ok _ _ hk] at h ⊢
      rw [processLine_of_ok _ _ hk]
      by_cases hr : (from_chars guess_str.toList 0).2 < 1 ∨ (from_chars guess_str.toList 0).2 > 100
      · rw [if_pos hr, if_pos hr]
      · rw [if_neg hr] at h
        split_ifs at h <;> simp [isRejected] at h
    · rw [processLine_of_error _ _ hk, processLine_of_error _ _ hk]
  refine ⟨key, by rw [key], by rw [key], ?_⟩
  rw [key]
  exact broke_eq_false_of_not_win _ _ (not_win_of_isRejected _ _ h)

/-- C9 at the line `150` and the secrets 42 and 7. -/
theorem C9_rejection_independent_of_secret_witness :
    isRejected (processLine 42 "150").outcome = true ∧
    processLine 7 "150" = processLine 42 "150" :=
  ⟨by decide, (C9_rejection_independent_of_secret "150" 42 7 (by decide)).1⟩

/-- C10: the integer syntax is that of `from_chars` at the start of the line. A line that
begins with a plus sign, a space or a tab is classified ParseError whatever follows (so `+5`
and ` 5` are); a minus sign before the digits is accepted and gives the negated value when
it fits `int32_t` (so `-5` is the guess -5, then rejected as out of range); leading zeros
are accepted and do not change the pass (so `007` is the guess 7). A `You guessed: N` line
is written exactly when `from_chars` reports no error, it is the first text of the pass and
`N` is the parsed value; RangeError is the case of no error with a value outside 1..100. -/
theorem C10_from_chars_grammar (secret_number : Int) (t : List Char) (k n : Nat)
    (guess_str : String) :
    processLine secret_number (String.mk ('+' :: t)) =
      ⟨RoundOutcome.ParseError, [invalidInputText], false⟩ ∧
    processLine secret_number (String.mk (' ' :: t)) =
      ⟨RoundOutcome.ParseError, [invalidInputText], false⟩ ∧
    processLine secret_number (String.mk ('\t' :: t)) =
      ⟨RoundOutcome.ParseError, [invalidInputText], false⟩ ∧
    processLine secret_number "+5" = ⟨RoundOutcome.ParseError, [invalidInputText], false⟩ ∧
    processLine secret_number " 5" = ⟨RoundOutcome.ParseError, [invalidInputText], false⟩ ∧
    parsedGuess (String.mk ('-' :: (formatInt (n : Int)).toList)) =
      (if (n : Int) ≤ 2147483648 then some (-(n : Int)) else none) ∧
    processLine secret_number "-5" =
      ⟨RoundOutcome.RangeError, ["You guessed: -5\n", outOfRangeText], false⟩ ∧
    processLine secret_number (String.mk (List.replicate k '0' ++ (formatInt (n : Int)).toList)) =
      processLine secret_number (formatInt (n : Int)) ∧
    parsedGuess "007" = some 7 ∧
    processLine secret_number "007" = processLine secret_number "7" ∧
    ((∃ N : Int, guessedText N ∈ (processLine secret_number guess_str).cout) ↔
      (from_chars guess_str.toList 0).1.ec = errc.ok) ∧
    ((processLine secret_number guess_str).cout.head? =
        some (guessedText (from_chars guess_str.toList 0).2) ↔
      (from_chars guess_str.toList 0).1.ec = errc.ok) ∧
    ((processLine secret_number guess_str).outcome = RoundOutcome.RangeError ↔
      ((from_chars guess_str.toList 0).1.ec = errc.ok ∧
        ((from_chars guess_str.toList 0).2 < 1 ∨ 100 < (from_chars guess_str.toList 0).2))) := by
  have hpe : ∀ c : Char, c.isDigit = false → c ≠ '-' →
      processLine secret_number (String.mk (c :: t)) =
        ⟨RoundOutcome.ParseError, [invalidInputText], false⟩ := by
    intro c hc hm
    refine processLine_of_error _ _ ?_
    have hb : beginsWithInteger (String.mk (c :: t)) = false := by
      unfold beginsWithInteger
      show (match c :: t with
        | '-' :: c :: _ => c.isDigit
        | c :: _ => c.isDigit
        | [] => false) = false
      split
      · rename_i heq
        exact absurd (List.cons.inj heq).1 hm
      · rename_i heq
        rw [← (List.cons.inj heq).1]
        exact hc
      · rename_i heq
        exact absurd heq (by simp)
    rw [from_chars_no_leading_integer _ _ hb]
    simp
  have hzero : processLine secret_number
      (String.mk (List.replicate k '0' ++ (formatInt (n : Int)).toList)) =
      processLine secret_number (formatInt (n : Int)) :=
    processLine_congr _ _ _ (from_chars_zeros_append k n 0).1 (from_chars_zeros_append k n 0).2
  refine ⟨hpe '+' (by decide) (by decide), hpe ' ' (by decide) (by decide),
    hpe '\t' (by decide) (by decide), ?_, ?_, ?_, ?_, hzero, by decide, ?_, ?_, ?_, ?_⟩
  · exact processLine_of_error _ _ (by decide)
  · exact processLine_of_error _ _ (by decide)
  · have hf := from_chars_minus_digits (Nat.toDigits 10 n) (toDigits_ne_nil n)
      (toDigits_isDigit n) 0
    rw [accumulate_toDigits] at hf
    have hl : (String.mk ('-' :: (formatInt (n : Int)).toList)).toList =
        '-' :: Nat.toDigits 10 n := rfl
    have hcond : (INT32_MIN ≤ -(n : Int) ∧ -(n : Int) ≤ INT32_MAX) ↔ (n : Int) ≤ 2147483648 := by
      simp only [INT32_MIN, INT32_MAX]
      omega
    unfold parsedGuess
    rw [hl, hf]
    by_cases hn : (n : Int) ≤ 2147483648
    · rw [if_pos (hcond.mpr hn), if_pos hn]
      simp
    · rw [if_neg (mt hcond.mp hn), if_neg hn]
      simp
  · have h5 := processLine_formatInt_of_fits secret_number (-5) (by decide)
    rw [if_pos (by decide)] at h5
    exact h5
  · exact processLine_congr _ _ _ (by decide) (by decide)
  · by_cases hk : (from_chars guess_str.toList 0).1.ec = errc.ok
    · simp only [hk, iff_true]
      refine ⟨(from_chars guess_str.toList 0).2, ?_⟩
      rw [processLine_of_ok _ _ hk]
      split_ifs <;> simp
    · simp only [hk, iff_false, not_exists]
      intro N hN
      rw [processLine_of_error _ _ hk] at hN
      exact guessedText_ne N invalidInputText (by decide) (List.mem_singleton.mp hN)
  · by_cases hk : (from_chars guess_str.toList 0).1.ec = errc.ok
    · simp only [hk, iff_true]
      rw [processLine_of_ok _ _ hk]
      split_ifs <;> rfl
    · simp only [hk, iff_false]
      rw [processLine_of_error _ _ hk]
      intro e
      exact guessedText_ne _ invalidInputText (by decide) (Option.some.inj e).symm
  · by_cases hk : (from_chars guess_str.toList 0).1.ec = errc.ok
    · rw [processLine_of_ok _ _ hk]
      split_ifs with h1 h2 h3
      · simp only [hk, true_and, true_iff]
        omega
      · simp only [hk, true_and, reduceCtorEq, false_iff]
        omega
      · simp only [hk, true_and, reduceCtorEq, false_iff]
        omega
      · simp only [hk, true_and, reduceCtorEq, false_iff]
        omega
    · rw [processLine_of_error _ _ hk]
      simp only [reduceCtorEq, false_iff, not_and]
      intro e
      exact absurd e hk

end GuessingGame
